import Mathlib

/-!
Verification of the URL-extraction and request-orchestration logic of the
globaid-api service (src/main.py).  Strings are modelled as lists of
characters; the Python regular expressions used by the source are modelled
as explicit matchers; the external HTTP and LLM calls are modelled as
oracle outcomes supplied to the embedded functions.
-/

/-- Python strings are modelled as lists of characters. -/
abbrev Str := List Char

/-- Coerce a Lean string literal to the model type. -/
def str (s : String) : Str := s.data

/-- Python substring containment needle in hay. -/
def strStarts : Str → Str → Bool
  | [], _ => true
  | _ :: _, [] => false
  | a :: as, b :: bs => a == b && strStarts as bs

/-- Model of the Python expression needle in hay (substring containment). -/
def inStr (needle : Str) : Str → Bool
  | [] => strStarts needle []
  | c :: t => strStarts needle (c :: t) || inStr needle t

/-- ASCII lower-casing of one character, as Char.toLower does. -/
def lowerC (c : Char) : Char := c.toLower

/-- Character class A-Z0-9 matched case-insensitively (re.IGNORECASE):
    the 52 ASCII letters and the digits, plus the four non-ASCII letters
    that CPython documents for the Unicode case folding of A-Z: Latin
    capital letter I with dot above (U+0130), Latin small letter dotless i
    (U+0131), Latin small letter long s (U+017F) and the Kelvin sign
    (U+212A). -/
def isAlnumCI (c : Char) : Bool :=
  c.isAlpha || c.isDigit ||
    c.val = 0x130 || c.val = 0x131 || c.val = 0x17F || c.val = 0x212A

/-- Character class A-Z0-9 matched case-sensitively (no re.IGNORECASE). -/
def isUpperAlnum (c : Char) : Bool := c.isUpper || c.isDigit

/-- Match exactly k repetitions of a character class, returning the matched
    characters and the rest of the input (regex class with a fixed count). -/
def matchReps (p : Char → Bool) : Nat → Str → Option (Str × Str)
  | 0, s => some ([], s)
  | _ + 1, [] => none
  | k + 1, c :: s =>
      if p c then (matchReps p k s).map (fun tr => (c :: tr.1, tr.2)) else none

/-- Case-insensitive literal match, returning the rest of the input. -/
def matchLitCI : Str → Str → Option Str
  | [], s => some s
  | _ :: _, [] => none
  | l :: ls, c :: cs => if lowerC c = lowerC l then matchLitCI ls cs else none

/-- The alternation dp or gp or product of the first regex (IGNORECASE).
    The two branches start with disjoint characters, so the ordered
    alternation commits to the first branch that matches. -/
def matchAlt (s : Str) : Option Str :=
  match s with
  | c1 :: c2 :: rest =>
      if (lowerC c1 = 'd' ∨ lowerC c1 = 'g') ∧ lowerC c2 = 'p' then some rest
      else matchLitCI (str "product") s
  | _ => matchLitCI (str "product") s

/-- One attempt of the first regex of the cascade at a fixed position:
    a slash, then dp, gp or product, then a slash, then ten characters of
    A-Z0-9 (IGNORECASE); returns the captured ten-character group. -/
def tryMatch1At : Str → Option Str
  | [] => none
  | c :: rest =>
      if c = '/' then
        match matchAlt rest with
        | none => none
        | some r2 =>
            match r2 with
            | [] => none
            | c2 :: r3 =>
                if c2 = '/' then (matchReps isAlnumCI 10 r3).map Prod.fst
                else none
      else none

/-- re.search of the first regex: leftmost position whose attempt succeeds. -/
def search1 : Str → Option Str
  | [] => none
  | c :: t => (tryMatch1At (c :: t)).orElse (fun _ => search1 t)

/-- One attempt of the second regex at a fixed position: a slash, then ten
    characters of A-Z0-9 (IGNORECASE), then a slash, a question mark, the
    end of the string, or a newline ending the string (Python dollar also
    matches just before a trailing newline). -/
def tryMatch2At : Str → Option Str
  | [] => none
  | c :: rest =>
      if c = '/' then
        match matchReps isAlnumCI 10 rest with
        | none => none
        | some tr =>
            match tr.2 with
            | [] => some tr.1
            | c2 :: r3 =>
                if c2 = '/' ∨ c2 = '?' ∨ (c2 = '\n' ∧ r3 = []) then some tr.1
                else none
      else none

/-- re.search of the second regex: leftmost position whose attempt succeeds. -/
def search2 : Str → Option Str
  | [] => none
  | c :: t => (tryMatch2At (c :: t)).orElse (fun _ => search2 t)

/-- re.match of the anchored third regex, ten characters of A-Z0-9 with no
    IGNORECASE flag; the dollar anchor also accepts one trailing newline. -/
def regex3 (v : Str) : Bool :=
  match matchReps isUpperAlnum 10 v with
  | some tr => tr.2 = [] || tr.2 = ['\n']
  | none => false

example : search1 (str "https://www.amazon.com.br/dp/B012345678") = some (str "B012345678") := by decide
example : search1 (str "https://www.amazon.com/x?asin=ABCDEFGHIJ") = none := by decide
example : search2 (str "https://www.amazon.com/B01MXY2Z9K?th=1") = some (str "B01MXY2Z9K") := by decide
example : regex3 (str "ABCDEFGHIJ") = true := by decide
example : regex3 (str "b012345678") = false := by decide
example : regex3 (str "ABCDEFGHIJ\n") = true := by decide
example : isAlnumCI (Char.ofNat 0x212A) = true := by decide
example : search1 (str "https://www.amazon.com/dp/\u212AAAAAAAAAA") =
    some (str "\u212AAAAAAAAAA") := by decide
example : search1 (str "https://www.amazon.com/dp/\u212AAAAAAAAAA/dp/B012345678") =
    some (str "\u212AAAAAAAAAA") := by decide

/-! ## Model of urllib.parse: urlparse().hostname, urlparse().query, parse_qs -/

/-- Split a list at the first occurrence of a separator character,
    returning the parts before and after it, if the separator occurs. -/
def splitFirst (sep : Char) : Str → Option (Str × Str)
  | [] => none
  | c :: t =>
      if c = sep then some ([], t)
      else (splitFirst sep t).map (fun ba => (c :: ba.1, ba.2))

/-- Python split on a separator character (keeps empty fields). -/
def splitOn (sep : Char) : Str → List Str
  | [] => [[]]
  | c :: t =>
      if c = sep then [] :: splitOn sep t
      else
        match splitOn sep t with
        | [] => [[c]]
        | f :: r => (c :: f) :: r

/-- Characters urlsplit strips from both ends of the URL
    (C0 controls and space). -/
def isC0OrSpace (c : Char) : Bool := c.val ≤ 32

/-- urlsplit sanitisation: strip C0 controls and spaces from both ends,
    then remove every tab, carriage return and line feed. -/
def sanitizeUrl (u : Str) : Str :=
  (((u.dropWhile isC0OrSpace).reverse.dropWhile isC0OrSpace).reverse).filter
    (fun c => ¬(c = '\t' ∨ c = '\r' ∨ c = '\n'))

/-- Characters allowed in a URL scheme. -/
def isSchemeChar (c : Char) : Bool :=
  c.isAlpha || c.isDigit || c = '+' || c = '-' || c = '.'

/-- Remove a leading scheme: if a colon occurs at a positive index and every
    character before it is a scheme character starting with an ASCII letter,
    drop the scheme and the colon; otherwise keep the URL unchanged. -/
def splitSchemeRest (u : Str) : Str :=
  match splitFirst ':' u with
  | some (bef, aft) =>
      match bef with
      | [] => u
      | b0 :: _ => if b0.isAlpha ∧ bef.all isSchemeChar then aft else u
  | none => u

/-- Characters that terminate the network-location part. -/
def isNetlocEnd (c : Char) : Bool := c = '/' || c = '?' || c = '#'

/-- Split off the network location: present only after a leading
    double slash, running until a slash, question mark or hash. -/
def splitNetlocPair (rest : Str) : Str × Str :=
  if strStarts (str "//") rest then
    let r := rest.drop 2
    (r.takeWhile (fun c => ¬ isNetlocEnd c), r.dropWhile (fun c => ¬ isNetlocEnd c))
  else ([], rest)

/-- The part of the network location after the last at sign
    (userinfo removal, rpartition on the at sign). -/
def afterLastAt (l : Str) : Str := (l.reverse.takeWhile (fun c => c ≠ '@')).reverse

/-- urlparse().hostname: netloc without userinfo and port, lower-cased;
    None when empty.  A bracketed IPv6 literal keeps the part between
    the first opening bracket and the following closing bracket; the
    ValueError urlparse raises on a netloc with an unmatched bracket is
    not modelled (such URLs cannot pass the endpoints' URL validation). -/
def hostnameOf (url : Str) : Option Str :=
  let rest := splitSchemeRest (sanitizeUrl url)
  let netloc := (splitNetlocPair rest).1
  let hostinfo := afterLastAt netloc
  let host :=
    match splitFirst '[' hostinfo with
    | some (_, bracketed) => bracketed.takeWhile (fun c => c ≠ ']')
    | none => hostinfo.takeWhile (fun c => c ≠ ':')
  let host := host.map lowerC
  if host = [] then none else some host

/-- urlparse().query: the remainder after the network location, with the
    fragment (from the first hash) removed, after the first question mark. -/
def queryOf (url : Str) : Str :=
  let rest := splitSchemeRest (sanitizeUrl url)
  let rem := (splitNetlocPair rest).2
  let noFrag := rem.takeWhile (fun c => c ≠ '#')
  match splitFirst '?' noFrag with
  | some (_, q) => q
  | none => []

/-- Hexadecimal value of one character, if any. -/
def hexVal (c : Char) : Option Nat :=
  if c.isDigit then some (c.toNat - 48)
  else if 'a' ≤ c ∧ c ≤ 'f' then some (c.toNat - 87)
  else if 'A' ≤ c ∧ c ≤ 'F' then some (c.toNat - 55)
  else none

/-- Percent-decoding as by urllib.parse.unquote; a percent sign followed by
    two hexadecimal digits becomes the denoted byte, an invalid escape is
    kept literally.  Multi-byte UTF-8 recombination of bytes at or above
    0x80 is not modelled; no claim depends on non-ASCII input. -/
def unquoteL : Str → Str
  | [] => []
  | '%' :: a :: b :: rest =>
      match hexVal a, hexVal b with
      | some x, some y => Char.ofNat (16 * x + y) :: unquoteL rest
      | _, _ => '%' :: unquoteL (a :: b :: rest)
  | '%' :: rest => '%' :: unquoteL rest
  | c :: rest => c :: unquoteL rest

/-- parse_qsl decoding of one name or value: plus signs become spaces,
    then percent-escapes are decoded. -/
def unquotePlus (v : Str) : Str :=
  unquoteL (v.map (fun c => if c = '+' then ' ' else c))

/-- parse_qsl with the default options: split the query on ampersands,
    skip empty fields, fields without an equals sign and fields whose raw
    value is empty, and decode names and values. -/
def parse_qsl (qs : Str) : List (Str × Str) :=
  (splitOn '&' qs).filterMap (fun field =>
    if field = [] then none
    else
      match splitFirst '=' field with
      | none => none
      | some (n, v) => if v = [] then none else some (unquotePlus n, unquotePlus v))

/-- The first value listed under a key, as query_params[key][0] after
    parse_qs (parse_qs groups parse_qsl pairs by name in order). -/
def firstValue (ps : List (Str × Str)) (k : Str) : Option Str :=
  (ps.find? (fun p => p.1 == k)).map Prod.snd

example : hostnameOf (str "https://User@WWW.Amazon.com.BR:443/dp/B012345678") = some (str "www.amazon.com.br") := by decide
example : hostnameOf (str "/dp/B012345678") = none := by decide
example : queryOf (str "https://www.amazon.com/x?asin=ABCDEFGHIJ#f?g") = str "asin=ABCDEFGHIJ" := by decide
example : unquotePlus (str "ABCDEFGHIJ%0A") = str "ABCDEFGHIJ\n" := by decide
example : firstValue (parse_qsl (str "a=1&asin=B012345678&asin=C012345678")) (str "asin") = some (str "B012345678") := by decide

/-! ## extract_product_info_from_url -/

/-- The asin query-parameter fallback of the cascade: parse the query
    string, take the first value of the asin parameter, and accept it when
    the anchored case-sensitive regex matches (the whole parameter value is
    used as the identifier). -/
def queryAsin (url : Str) : Option Str :=
  match firstValue (parse_qsl (queryOf url)) (str "asin") with
  | some v => if regex3 v then some v else none
  | none => none

/-- The ordered matcher cascade producing the identifier: the first regex,
    else the second, else the asin query parameter. -/
def extractAsin (url : Str) : Option Str :=
  match search1 url with
  | some a => some a
  | none =>
      match search2 url with
      | some a => some a
      | none => queryAsin url

/-- The hostname-suffix lookup table, in declaration order. -/
def country_map : List (Str × Str) :=
  [(str "amazon.com.br", str "BR"), (str "amazon.com", str "US"),
   (str "amazon.co.uk", str "GB"), (str "amazon.de", str "DE"),
   (str "amazon.ca", str "CA"), (str "amazon.fr", str "FR"),
   (str "amazon.es", str "ES"), (str "amazon.it", str "IT"),
   (str "amazon.co.jp", str "JP"), (str "amazon.in", str "IN"),
   (str "amazon.com.mx", str "MX"), (str "amazon.com.au", str "AU")]

/-- next((country_map[key] for key in country_map if key in hostname), "US"):
    the value of the first table key contained in the hostname, else US. -/
def lookupCountry : List (Str × Str) → Str → Str
  | [], _ => str "US"
  | kv :: rest, h => if inStr kv.1 h then kv.2 else lookupCountry rest h

/-- Identifier and marketplace extracted from one URL. -/
structure UrlInfo where
  asin : Str
  country : Str
deriving DecidableEq, Repr

/-- extract_product_info_from_url: run the matcher cascade; on failure
    return None; otherwise parse the hostname, failing when it is absent,
    and resolve the marketplace through the lookup table. -/
def extract_product_info_from_url (url : Str) : Option UrlInfo :=
  match extractAsin url with
  | none => none
  | some a =>
      match hostnameOf url with
      | none => none
      | some h => some ⟨a, lookupCountry country_map h⟩

example : extract_product_info_from_url (str "https://www.amazon.com.br/dp/B012345678") =
    some ⟨str "B012345678", str "BR"⟩ := by decide
example : extract_product_info_from_url (str "https://www.amazon.com/gp/product/b01mXy2z9K") =
    some ⟨str "b01mXy2z9K", str "US"⟩ := by decide
example : extract_product_info_from_url (str "https://www.amazon.com/shop?asin=b012345678") = none := by decide
example : extract_product_info_from_url (str "https://www.amazon.com/x?asin=ABCDEFGHIJ%0A") =
    some ⟨str "ABCDEFGHIJ\n", str "US"⟩ := by decide
example : extract_product_info_from_url (str "/dp/B012345678") = none := by decide
example : extract_product_info_from_url (str "https://www.nothing.example/page") = none := by decide

/-! ## Data model, external-call oracles, clients -/

/-- Exceptions that can cross function boundaries: fastapi.HTTPException
    with a status code and detail, or any other raw Python exception. -/
inductive PyError where
  | httpExc (status : Nat) (detail : Str)
  | rawExc (msg : Str)
deriving DecidableEq, Repr

/-- getattr(e, detail, str(e)): the detail of an HTTPException, the
    message of any other exception. -/
def detailOf : PyError → Str
  | .httpExc _ d => d
  | .rawExc m => m

/-- The fields of the provider product record that the service reads
    (a JSON object; an absent or null field is none). -/
structure ProductData where
  product_title : Option Str := none
  product_description : Option Str := none
  about_product : Option (List Str) := none
  product_photos : Option (List Str) := none
  images : Option (List Str) := none
  product_images : Option (List Str) := none
  image_urls : Option (List Str) := none
  product_information : Option (List (Str × Str)) := none
  product_main_image_url : Option Str := none
deriving DecidableEq, Repr

/-- The image-key probing of get_product_details: the first of
    product_photos, images, product_images, image_urls that holds a
    non-empty list; otherwise the empty list. -/
def foundImages (d : ProductData) : List Str :=
  match d.product_photos with
  | some (x :: xs) => x :: xs
  | _ =>
      match d.images with
      | some (x :: xs) => x :: xs
      | _ =>
          match d.product_images with
          | some (x :: xs) => x :: xs
          | _ =>
              match d.image_urls with
              | some (x :: xs) => x :: xs
              | _ => []

/-- Outcome of the one outbound HTTPS call of get_product_details:
    a transport error (httpx.RequestError), a non-2xx response
    (raise_for_status), or a response body whose data field is absent
    or present. -/
inductive DetailsOutcome where
  | transportErr
  | statusErr
  | ok (data : Option ProductData)
deriving DecidableEq, Repr

/-- get_product_details: transport errors become a 503 HTTPException, an
    absent data field becomes a 404 HTTPException, a non-2xx response
    raises httpx.HTTPStatusError uncaught (only httpx.RequestError is
    caught), and on success the probed image list is written back under
    the product_photos key. -/
def get_product_details (o : DetailsOutcome) : Except PyError ProductData :=
  match o with
  | .transportErr =>
      .error (.httpExc 503 (str "Erro ao chamar a API da Amazon para detalhes"))
  | .statusErr => .error (.rawExc (str "httpx.HTTPStatusError"))
  | .ok none => .error (.httpExc 404 (str "Produto não encontrado na API da Amazon."))
  | .ok (some data) => .ok { data with product_photos := some (foundImages data) }

/-- One review record as read by get_product_reviews. -/
structure Review where
  review_comment : Str
  review_star_rating : Int
deriving DecidableEq, Repr

/-- Review buckets returned by get_product_reviews. -/
structure ReviewSummary where
  positive_reviews : List Str
  negative_reviews : List Str
deriving DecidableEq, Repr

/-- The list-comprehension core of get_product_reviews: comments of the
    reviews rated at least 4 and of those rated at most 2, each list cut
    to its first ten entries. -/
def reviewBuckets (rs : List Review) : ReviewSummary :=
  ⟨((rs.filter (fun r => 4 ≤ r.review_star_rating)).map Review.review_comment).take 10,
   ((rs.filter (fun r => r.review_star_rating ≤ 2)).map Review.review_comment).take 10⟩

/-- Outcome of the reviews HTTP call. -/
inductive ReviewsOutcome where
  | transportErr
  | statusErr
  | ok (reviews : List Review)
deriving DecidableEq, Repr

/-- get_product_reviews: a transport error (httpx.RequestError) is caught
    and both buckets come back empty; a non-2xx response raises
    httpx.HTTPStatusError past the function (only RequestError is caught);
    otherwise the reviews of the response are bucketed. -/
def get_product_reviews (o : ReviewsOutcome) : Except PyError ReviewSummary :=
  match o with
  | .transportErr => .ok ⟨[], []⟩
  | .statusErr => .error (.rawExc (str "httpx.HTTPStatusError"))
  | .ok rs => .ok (reviewBuckets rs)

/-- One search result as read by get_competitors. -/
structure SearchProduct where
  asin : Option Str := none
  is_sponsored : Option Bool := none
  product_title : Option Str := none
  product_price : Option Str := none
  product_star_rating : Option Str := none
  product_num_ratings : Option Nat := none
deriving DecidableEq, Repr

/-- One competitor entry built from a search result. -/
structure CompetitorInfo where
  title : Option Str
  price : Option Str
  rating : Option Str
  reviews_count : Option Nat
deriving DecidableEq, Repr

/-- The entry built from one qualifying search result. -/
def mkCompetitor (p : SearchProduct) : CompetitorInfo :=
  ⟨p.product_title, p.product_price, p.product_star_rating, p.product_num_ratings⟩

/-- A search result qualifies when its asin field differs from the original
    identifier (an absent field differs from any identifier) and its
    is_sponsored field does not default to true. -/
def qualifies (p : SearchProduct) (orig : Str) : Bool :=
  (p.asin != some orig) && !(p.is_sponsored.getD false)

/-- The collection loop of get_competitors: append each qualifying result,
    and stop as soon as five entries have been collected (the length check
    runs after every iteration, qualifying or not). -/
def competitorsLoop (orig : Str) : List SearchProduct → List CompetitorInfo → List CompetitorInfo
  | [], acc => acc
  | p :: ps, acc =>
      if qualifies p orig then
        if 5 ≤ (acc ++ [mkCompetitor p]).length then acc ++ [mkCompetitor p]
        else competitorsLoop orig ps (acc ++ [mkCompetitor p])
      else
        if 5 ≤ acc.length then acc else competitorsLoop orig ps acc

/-- Outcome of the competitor-search HTTP call. -/
inductive CompetitorsOutcome where
  | transportErr
  | statusErr
  | ok (products : List SearchProduct)
deriving DecidableEq, Repr

/-- get_competitors: a transport error (httpx.RequestError) is caught and
    the list comes back empty; a non-2xx response raises
    httpx.HTTPStatusError past the function; otherwise the collection loop
    runs over the search results. -/
def get_competitors (o : CompetitorsOutcome) (original_asin : Str) :
    Except PyError (List CompetitorInfo) :=
  match o with
  | .transportErr => .ok []
  | .statusErr => .error (.rawExc (str "httpx.HTTPStatusError"))
  | .ok ps => .ok (competitorsLoop original_asin ps [])

/-! ## analyze_product_with_gemini and the analyze pipeline -/

/-- Outcome of the LLM chat-completion call. -/
inductive GenOutcome where
  | ok (text : Str)
  | fail (msg : Str)
deriving DecidableEq, Repr

/-- Python str.join with a separator. -/
def joinSep (sep : Str) : List Str → Str
  | [] => []
  | [x] => x
  | x :: y :: xs => x ++ sep ++ joinSep sep (y :: xs)

/-- ASCII whitespace stripped by Python str.strip. -/
def isSpaceCh (c : Char) : Bool :=
  c = ' ' || c = '\t' || c = '\n' || c = '\r' || c.val = 11 || c.val = 12

/-- Python str.strip with no argument. -/
def stripWs (s : Str) : Str :=
  ((s.dropWhile isSpaceCh).reverse.dropWhile isSpaceCh).reverse

/-- The dimensions scan of analyze_product_with_gemini: the value of the
    first product_information key whose lower-cased text contains dimens,
    else N/A. -/
def findDimensions : List (Str × Str) → Str
  | [] => str "N/A"
  | kv :: rest =>
      if inStr (str "dimens") (kv.1.map lowerC) then kv.2 else findDimensions rest

/-- The textual-content block of analyze_product_with_gemini. -/
def fullTextContent (d : ProductData) : Str :=
  let features := d.about_product.getD []
  let featuresText := if features = [] then str "N/A" else joinSep (str "\n- ") features
  stripWs (d.product_description.getD [] ++ str "\n\nFeatures:\n- " ++ featuresText)

/-- The textual fallback report returned when the product has no images. -/
def fallbackReport (d : ProductData) : Str :=
  str "⚠️ Nenhuma imagem de produto foi encontrada na API.\n--- DADOS TEXTUAIS ---\n**Título:** "
    ++ d.product_title.getD (str "N/A")
    ++ str "\n**Conteúdo do anúncio:**\n" ++ fullTextContent d
    ++ str "\n**Dimensões (texto):** " ++ findDimensions (d.product_information.getD [])

/-- analyze_product_with_gemini: with an empty image list the fallback
    report is returned without calling the model; otherwise the model call
    either returns its text or fails, and a failure is re-raised as a 500
    HTTPException.  The prompt string handed to the model is not modelled:
    no claim inspects it, and the call result is the oracle outcome. -/
def analyze_product_with_gemini (g : GenOutcome) (product_data : ProductData)
    (_country : Str) : Except PyError Str :=
  let image_urls := product_data.product_photos.getD []
  if image_urls = [] then .ok (fallbackReport product_data)
  else
    match g with
    | .ok text => .ok text
    | .fail m => .error (.httpExc 500 (str "Erro ao chamar a API para análise: " ++ m))

/-- The response envelope of the analyze endpoints (pydantic defaults:
    optional title and image URL absent, photo and feature lists empty). -/
structure AnalyzeResponse where
  report : Str
  asin : Str
  country : Str
  product_title : Option Str := none
  product_image_url : Option Str := none
  product_photos : Option (List Str) := some []
  product_features : Option (List Str) := some []
deriving DecidableEq, Repr

/-- The external-call outcomes available to one single-URL run. -/
structure Oracles where
  details : DetailsOutcome
  gen : GenOutcome
deriving DecidableEq, Repr

/-- The body of the try block of process_single_url_async: fetch the
    product record, then run the analysis. -/
def pipelineCore (o : Oracles) (country : Str) : Except PyError (ProductData × Str) := do
  let pd ← get_product_details o.details
  let rep ← analyze_product_with_gemini o.gen pd country
  pure (pd, rep)

/-- process_single_url_async: a failed extraction yields the error-shaped
    response with the ERRO sentinel; any exception of the fetch-and-analyze
    body is caught and converted into an error-shaped response carrying the
    extracted identifier; a success fills the normal response. -/
def process_single_url_async (o : Oracles) (url : Str) : AnalyzeResponse :=
  match extract_product_info_from_url url with
  | none =>
      { report := str "Erro: URL inválida ou ASIN não encontrado.",
        asin := str "ERRO", country := str "N/A",
        product_title := some (str "Falha ao processar URL: " ++ url) }
  | some info =>
      match pipelineCore o info.country with
      | .ok (pd, rep) =>
          { report := rep, asin := info.asin, country := info.country,
            product_title := pd.product_title,
            product_image_url := pd.product_main_image_url,
            product_photos := some (pd.product_photos.getD []),
            product_features := some (pd.about_product.getD []) }
      | .error e =>
          { report := str "Erro ao processar o ASIN " ++ info.asin ++ str ": " ++ detailOf e,
            asin := info.asin, country := info.country,
            product_title := some (str "Falha ao processar URL: " ++ url) }

/-- POST /analyze: run the single-URL path and raise a 400 HTTPException
    exactly when the response carries the ERRO sentinel. -/
def run_analysis_pipeline (o : Oracles) (url : Str) : Except PyError AnalyzeResponse :=
  if (process_single_url_async o url).asin = str "ERRO" then
    .error (.httpExc 400 (process_single_url_async o url).report)
  else .ok (process_single_url_async o url)

/-- POST /batch_analyze: one independent single-URL run per input, joined
    in input order.  process_single_url_async returns on every path, so
    the exception-to-placeholder branch after the concurrent join is the
    identity and the batch is the ordered map of the single-URL runs. -/
def run_batch_analysis_pipeline (inputs : List (Oracles × Str)) : List AnalyzeResponse :=
  inputs.map (fun ou => process_single_url_async ou.1 ou.2)

example : (run_analysis_pipeline ⟨DetailsOutcome.ok none, GenOutcome.ok (str "R")⟩
    (str "https://www.amazon.com/dp/B000000000")).isOk = true := by decide
example : run_analysis_pipeline ⟨DetailsOutcome.ok none, GenOutcome.ok (str "R")⟩
    (str "https://www.amazon.com/") =
    .error (.httpExc 400 (str "Erro: URL inválida ou ASIN não encontrado.")) := by rfl

/-! ## Helper lemmas on the string and matcher models -/

theorem strStarts_iff (n h : Str) : strStarts n h = true ↔ ∃ s, h = n ++ s := by
  induction n generalizing h with
  | nil => simp [strStarts]
  | cons a as ih =>
    cases h with
    | nil =>
      simp only [strStarts]
      constructor
      · intro hc; exact absurd hc (by simp)
      · rintro ⟨s, hs⟩; simp at hs
    | cons b bs =>
      simp only [strStarts, Bool.and_eq_true, beq_iff_eq, ih]
      constructor
      · rintro ⟨rfl, s, rfl⟩; exact ⟨s, rfl⟩
      · rintro ⟨s, hs⟩
        rw [List.cons_append] at hs
        injection hs with h1 h2
        exact ⟨h1.symm, s, h2⟩

theorem inStr_iff (n h : Str) : inStr n h = true ↔ ∃ p s, h = p ++ n ++ s := by
  induction h with
  | nil =>
    simp only [inStr, strStarts_iff]
    constructor
    · rintro ⟨s, hs⟩; exact ⟨[], s, by simpa using hs⟩
    · rintro ⟨p, s, hs⟩
      have h0 : p = [] ∧ n = [] ∧ s = [] := by
        simpa [List.append_assoc, List.append_eq_nil] using hs.symm
      exact ⟨[], by simp [h0.2.1]⟩
  | cons c t ih =>
    simp only [inStr, Bool.or_eq_true, strStarts_iff, ih]
    constructor
    · rintro (⟨s, hs⟩ | ⟨p, s, hs⟩)
      · exact ⟨[], s, by simpa using hs⟩
      · exact ⟨c :: p, s, by simp [hs]⟩
    · rintro ⟨p, s, hs⟩
      cases p with
      | nil => exact Or.inl ⟨s, by simpa using hs⟩
      | cons x xs =>
        rw [List.cons_append, List.cons_append] at hs
        injection hs with h1 h2
        exact Or.inr ⟨xs, s, h2⟩

theorem inStr_append_middle (n a b : Str) : inStr n (a ++ n ++ b) = true :=
  (inStr_iff n (a ++ n ++ b)).mpr ⟨a, b, rfl⟩

theorem matchReps_sound (p : Char → Bool) :
    ∀ (k : Nat) (s t r : Str), matchReps p k s = some (t, r) →
      t.length = k ∧ (∀ c ∈ t, p c = true) ∧ s = t ++ r := by
  intro k
  induction k with
  | zero =>
    intro s t r hm
    simp only [matchReps, Option.some.injEq, Prod.mk.injEq] at hm
    obtain ⟨rfl, rfl⟩ := hm
    simp
  | succ n ih =>
    intro s t r hm
    cases s with
    | nil =>
      have hnone : matchReps p (n + 1) ([] : Str) = none := rfl
      rw [hnone] at hm
      cases hm
    | cons c cs =>
      simp only [matchReps] at hm
      by_cases hc : p c
      · rw [if_pos hc] at hm
        cases hrec : matchReps p n cs with
        | none => rw [hrec] at hm; simp at hm
        | some tr =>
          rw [hrec] at hm
          obtain ⟨t2, r2⟩ := tr
          have hm2 : (c :: t2, r2) = (t, r) := by
            have : Option.map (fun tr => (c :: tr.1, tr.2)) (some (t2, r2)) =
                some (c :: t2, r2) := rfl
            rw [this] at hm
            exact Option.some.inj hm
          obtain ⟨hlen, hall, hs⟩ := ih cs t2 r2 hrec
          obtain ⟨ht, hr⟩ := Prod.mk.inj hm2
          rw [← ht, ← hr]
          refine ⟨by simp [hlen], ?_, by simp [hs]⟩
          intro x hx
          rcases List.mem_cons.mp hx with rfl | hx2
          · exact hc
          · exact hall x hx2
      · rw [if_neg hc] at hm; simp at hm

theorem matchReps_complete (p : Char → Bool) :
    ∀ (t r : Str), (∀ c ∈ t, p c = true) →
      matchReps p t.length (t ++ r) = some (t, r) := by
  intro t
  induction t with
  | nil => intro r _; simp [matchReps]
  | cons c cs ih =>
    intro r hall
    have hc : p c = true := hall c (List.mem_cons_self c cs)
    have ihr := ih r (fun x hx => hall x (List.mem_cons_of_mem c hx))
    have step : matchReps p (cs.length + 1) (c :: (cs ++ r)) =
        if p c then (matchReps p cs.length (cs ++ r)).map (fun tr => (c :: tr.1, tr.2))
        else none := rfl
    show matchReps p (cs.length + 1) (c :: (cs ++ r)) = some (c :: cs, r)
    rw [step, if_pos hc, ihr]
    rfl

theorem matchLitCI_consumes :
    ∀ (lit s r : Str), matchLitCI lit s = some r → ∃ u, s = u ++ r := by
  intro lit
  induction lit with
  | nil =>
    intro s r hm
    simp only [matchLitCI, Option.some.injEq] at hm
    exact ⟨[], by simp [hm]⟩
  | cons l ls ih =>
    intro s r hm
    cases s with
    | nil => simp [matchLitCI] at hm
    | cons c cs =>
      simp only [matchLitCI] at hm
      by_cases hc : lowerC c = lowerC l
      · rw [if_pos hc] at hm
        obtain ⟨u, hu⟩ := ih cs r hm
        exact ⟨c :: u, by simp [hu]⟩
      · rw [if_neg hc] at hm; cases hm

theorem matchAlt_consumes (s r : Str) (hm : matchAlt s = some r) : ∃ u, s = u ++ r := by
  cases s with
  | nil =>
    simp only [matchAlt] at hm
    exact matchLitCI_consumes _ _ _ hm
  | cons c1 t1 =>
    cases t1 with
    | nil =>
      simp only [matchAlt] at hm
      exact matchLitCI_consumes _ _ _ hm
    | cons c2 rest =>
      simp only [matchAlt] at hm
      by_cases hcond : (lowerC c1 = 'd' ∨ lowerC c1 = 'g') ∧ lowerC c2 = 'p'
      · rw [if_pos hcond] at hm
        exact ⟨[c1, c2], by simpa using Option.some.inj hm⟩
      · rw [if_neg hcond] at hm
        exact matchLitCI_consumes _ _ _ hm

theorem tryMatch1At_sound (s a : Str) (hm : tryMatch1At s = some a) :
    a.length = 10 ∧ (∀ c ∈ a, isAlnumCI c = true) ∧ ∃ u v, s = u ++ a ++ v := by
  cases s with
  | nil => simp [tryMatch1At] at hm
  | cons c rest =>
    simp only [tryMatch1At] at hm
    by_cases hc : c = '/'
    · rw [if_pos hc] at hm
      cases halt : matchAlt rest with
      | none => rw [halt] at hm; cases hm
      | some r2 =>
        rw [halt] at hm
        cases r2 with
        | nil => cases hm
        | cons c2 r3 =>
          have hm2 : (if c2 = '/' then Option.map Prod.fst (matchReps isAlnumCI 10 r3)
              else none) = some a := hm
          by_cases hc2 : c2 = '/'
          · rw [if_pos hc2] at hm2
            cases hrep : matchReps isAlnumCI 10 r3 with
            | none => rw [hrep] at hm2; cases hm2
            | some tr =>
              rw [hrep] at hm2
              obtain ⟨t, rr⟩ := tr
              have ha : t = a := Option.some.inj hm2
              obtain ⟨hlen, hall, hsplit⟩ := matchReps_sound isAlnumCI 10 r3 t rr hrep
              obtain ⟨u1, hu1⟩ := matchAlt_consumes rest (c2 :: r3) halt
              subst ha
              refine ⟨hlen, hall, c :: u1 ++ [c2], rr, ?_⟩
              simp [hu1, hsplit]
          · rw [if_neg hc2] at hm2; cases hm2
    · rw [if_neg hc] at hm; cases hm

theorem tryMatch2At_sound (s a : Str) (hm : tryMatch2At s = some a) :
    a.length = 10 ∧ (∀ c ∈ a, isAlnumCI c = true) ∧ ∃ u v, s = u ++ a ++ v := by
  cases s with
  | nil => simp [tryMatch2At] at hm
  | cons c rest =>
    simp only [tryMatch2At] at hm
    by_cases hc : c = '/'
    · rw [if_pos hc] at hm
      cases hrep : matchReps isAlnumCI 10 rest with
      | none => rw [hrep] at hm; cases hm
      | some tr =>
        rw [hrep] at hm
        obtain ⟨t, rr⟩ := tr
        obtain ⟨hlen, hall, hsplit⟩ := matchReps_sound isAlnumCI 10 rest t rr hrep
        have ha : t = a := by
          cases rr with
          | nil => exact Option.some.inj hm
          | cons c2 r3 =>
            have hm2 : (if c2 = '/' ∨ c2 = '?' ∨ (c2 = '\n' ∧ r3 = []) then some t
                else none) = some a := hm
            by_cases hcond : c2 = '/' ∨ c2 = '?' ∨ (c2 = '\n' ∧ r3 = [])
            · rw [if_pos hcond] at hm2; exact Option.some.inj hm2
            · rw [if_neg hcond] at hm2; cases hm2
        subst ha
        exact ⟨hlen, hall, [c], rr, by simp [hsplit]⟩
    · rw [if_neg hc] at hm; cases hm

theorem search1_sound :
    ∀ (l a : Str), search1 l = some a →
      a.length = 10 ∧ (∀ c ∈ a, isAlnumCI c = true) ∧ ∃ u v, l = u ++ a ++ v := by
  intro l
  induction l with
  | nil => intro a hm; cases hm
  | cons c t ih =>
    intro a hm
    simp only [search1] at hm
    cases htry : tryMatch1At (c :: t) with
    | some b =>
      rw [htry] at hm
      have hb : b = a := Option.some.inj hm
      subst hb
      exact tryMatch1At_sound _ _ htry
    | none =>
      rw [htry] at hm
      obtain ⟨hlen, hall, u, v, hd⟩ := ih a hm
      exact ⟨hlen, hall, c :: u, v, by simp [hd]⟩

theorem search2_sound :
    ∀ (l a : Str), search2 l = some a →
      a.length = 10 ∧ (∀ c ∈ a, isAlnumCI c = true) ∧ ∃ u v, l = u ++ a ++ v := by
  intro l
  induction l with
  | nil => intro a hm; cases hm
  | cons c t ih =>
    intro a hm
    simp only [search2] at hm
    cases htry : tryMatch2At (c :: t) with
    | some b =>
      rw [htry] at hm
      have hb : b = a := Option.some.inj hm
      subst hb
      exact tryMatch2At_sound _ _ htry
    | none =>
      rw [htry] at hm
      obtain ⟨hlen, hall, u, v, hd⟩ := ih a hm
      exact ⟨hlen, hall, c :: u, v, by simp [hd]⟩

theorem tryMatch1At_dp (t s : Str) (hlen : t.length = 10)
    (hall : ∀ c ∈ t, isAlnumCI c = true) :
    tryMatch1At (str "/dp/" ++ (t ++ s)) = some t := by
  have hreps : matchReps isAlnumCI 10 (t ++ s) = some (t, s) := by
    rw [← hlen]; exact matchReps_complete isAlnumCI t s hall
  have halt : matchAlt ('d' :: 'p' :: '/' :: (t ++ s)) = some ('/' :: (t ++ s)) := by
    simp [matchAlt, lowerC]
  show tryMatch1At ('/' :: 'd' :: 'p' :: '/' :: (t ++ s)) = some t
  simp only [tryMatch1At, if_pos rfl, halt, hreps]
  rfl

theorem search1_isSome_of_suffix :
    ∀ (pre rest : Str), (tryMatch1At rest).isSome = true →
      (search1 (pre ++ rest)).isSome = true := by
  intro pre
  induction pre with
  | nil =>
    intro rest h
    cases rest with
    | nil => simp [tryMatch1At] at h
    | cons c t =>
      simp only [List.nil_append, search1]
      cases htry : tryMatch1At (c :: t) with
      | some b => simp [Option.orElse, htry]
      | none => rw [htry] at h; simp at h
  | cons x xs ih =>
    intro rest h
    simp only [List.cons_append, search1]
    cases htry : tryMatch1At (x :: (xs ++ rest)) with
    | some b => simp [Option.orElse, htry]
    | none =>
      have := ih rest h
      simp [Option.orElse, htry, this]

theorem regex3_sound (v : Str) (h : regex3 v = true) :
    (v.length = 10 ∧ ∀ c ∈ v, isUpperAlnum c = true) ∨
      (∃ t, v = t ++ ['\n'] ∧ t.length = 10 ∧ ∀ c ∈ t, isUpperAlnum c = true) := by
  unfold regex3 at h
  cases hrep : matchReps isUpperAlnum 10 v with
  | none => rw [hrep] at h; cases h
  | some tr =>
    rw [hrep] at h
    obtain ⟨t, r⟩ := tr
    obtain ⟨hlen, hall, hsplit⟩ := matchReps_sound isUpperAlnum 10 v t r hrep
    simp only [Bool.or_eq_true, decide_eq_true_eq] at h
    rcases h with hnil | hnl
    · left
      rw [hsplit, hnil]
      simpa using ⟨hlen, hall⟩
    · right
      exact ⟨t, by rw [hsplit, hnl], hlen, hall⟩

theorem regex3_complete (v : Str) (hlen : v.length = 10)
    (hall : ∀ c ∈ v, isUpperAlnum c = true) : regex3 v = true := by
  unfold regex3
  have : matchReps isUpperAlnum 10 (v ++ []) = some (v, []) := by
    rw [← hlen]; exact matchReps_complete isUpperAlnum v [] hall
  rw [List.append_nil] at this
  rw [this]
  simp

theorem extractAsin_shape (url a : Str) (h : extractAsin url = some a) :
    (a.length = 10 ∧ ∀ c ∈ a, isAlnumCI c = true) ∨
      (∃ t, a = t ++ ['\n'] ∧ t.length = 10 ∧ ∀ c ∈ t, isUpperAlnum c = true) := by
  unfold extractAsin at h
  cases h1 : search1 url with
  | some b =>
    rw [h1] at h
    obtain ⟨hlen, hall, _⟩ := search1_sound url b h1
    have hb : b = a := Option.some.inj h
    subst hb
    exact Or.inl ⟨hlen, hall⟩
  | none =>
    rw [h1] at h
    cases h2 : search2 url with
    | some b =>
      rw [h2] at h
      obtain ⟨hlen, hall, _⟩ := search2_sound url b h2
      have hb : b = a := Option.some.inj h
      subst hb
      exact Or.inl ⟨hlen, hall⟩
    | none =>
      rw [h2] at h
      unfold queryAsin at h
      cases h3 : firstValue (parse_qsl (queryOf url)) (str "asin") with
      | none => rw [h3] at h; cases h
      | some v =>
        rw [h3] at h
        have h4 : (if regex3 v = true then some v else none) = some a := h
        by_cases hr : regex3 v = true
        · rw [if_pos hr] at h4
          have hv : v = a := Option.some.inj h4
          subst hv
          rcases regex3_sound v hr with ⟨hlen, hall⟩ | ⟨t, ht, hlen, hall⟩
          · refine Or.inl ⟨hlen, fun c hc => ?_⟩
            have := hall c hc
            simp only [isUpperAlnum, Bool.or_eq_true] at this
            rcases this with hu | hd
            · simp [isAlnumCI, Char.isAlpha, hu]
            · simp [isAlnumCI, hd]
          · exact Or.inr ⟨t, ht, hlen, hall⟩
        · rw [if_neg hr] at h4; cases h4

theorem extract_inv (url : Str) (info : UrlInfo)
    (h : extract_product_info_from_url url = some info) :
    ∃ a host, extractAsin url = some a ∧ hostnameOf url = some host ∧
      info = ⟨a, lookupCountry country_map host⟩ := by
  unfold extract_product_info_from_url at h
  cases ha : extractAsin url with
  | none => rw [ha] at h; cases h
  | some a =>
    rw [ha] at h
    cases hh : hostnameOf url with
    | none => rw [hh] at h; cases h
    | some host =>
      rw [hh] at h
      exact ⟨a, host, rfl, rfl, (Option.some.inj h).symm⟩

theorem lookupCountry_mem (table : List (Str × Str)) (h : Str) :
    lookupCountry table h ∈ table.map Prod.snd ∨ lookupCountry table h = str "US" := by
  induction table with
  | nil => exact Or.inr rfl
  | cons kv rest ih =>
    simp only [lookupCountry]
    by_cases hc : inStr kv.1 h = true
    · rw [if_pos hc]; exact Or.inl (by simp)
    · rw [if_neg (by simpa using hc)]
      rcases ih with hm | hus
      · exact Or.inl (by simp [List.mem_cons]; right; simpa using hm)
      · exact Or.inr hus

theorem lookupCountry_first (h k v : Str) (pre post : List (Str × Str))
    (hpre : ∀ kv ∈ pre, inStr kv.1 h = false) (hk : inStr k h = true) :
    lookupCountry (pre ++ (k, v) :: post) h = v := by
  induction pre with
  | nil => simp [lookupCountry, hk]
  | cons kv rest ih =>
    simp only [List.cons_append, lookupCountry]
    have hkv : inStr kv.1 h = false := hpre kv (List.mem_cons_self kv rest)
    rw [if_neg (by simp [hkv])]
    exact ih (fun x hx => hpre x (List.mem_cons_of_mem kv hx))

theorem extract_asin_ne_ERRO (url : Str) (info : UrlInfo)
    (h : extract_product_info_from_url url = some info) : info.asin ≠ str "ERRO" := by
  obtain ⟨a, host, ha, _, hinfo⟩ := extract_inv url info h
  subst hinfo
  intro hcontra
  simp only at hcontra
  rcases extractAsin_shape url a ha with ⟨hlen, _⟩ | ⟨t, hteq, hlen, _⟩
  · rw [hcontra] at hlen
    exact absurd hlen (by decide)
  · have h11 : a.length = 11 := by simp [hteq, hlen]
    rw [hcontra] at h11
    exact absurd h11 (by decide)

theorem competitorsLoop_eq_take (orig : Str) :
    ∀ (ps : List SearchProduct) (acc : List CompetitorInfo), acc.length < 5 →
      competitorsLoop orig ps acc =
        (acc ++ (ps.filter (fun p => qualifies p orig)).map mkCompetitor).take 5 := by
  intro ps
  induction ps with
  | nil =>
    intro acc hlt
    simp only [competitorsLoop, List.filter_nil, List.map_nil, List.append_nil]
    exact (List.take_of_length_le (Nat.le_of_lt hlt)).symm
  | cons p ps ih =>
    intro acc hlt
    simp only [competitorsLoop]
    by_cases hq : qualifies p orig
    · rw [if_pos hq]
      have hfil : (p :: ps).filter (fun p => qualifies p orig) =
          p :: ps.filter (fun p => qualifies p orig) := List.filter_cons_of_pos hq
      rw [hfil]
      by_cases h5 : 5 ≤ (acc ++ [mkCompetitor p]).length
      · rw [if_pos h5]
        have hlen5 : (acc ++ [mkCompetitor p]).length = 5 := by
          simp only [List.length_append, List.length_cons, List.length_nil] at h5 ⊢
          omega
        have hassoc : acc ++ ((p :: ps.filter (fun q => qualifies q orig)).map mkCompetitor) =
            (acc ++ [mkCompetitor p]) ++ (ps.filter (fun q => qualifies q orig)).map mkCompetitor := by
          simp
        rw [hassoc, ← hlen5, List.take_left]
      · rw [if_neg h5]
        have hlt2 : (acc ++ [mkCompetitor p]).length < 5 := by
          simp only [List.length_append, List.length_cons, List.length_nil] at h5 ⊢
          omega
        rw [ih (acc ++ [mkCompetitor p]) hlt2]
        simp
    · rw [if_neg hq]
      rw [if_neg (by omega : ¬ 5 ≤ acc.length)]
      have hfil : (p :: ps).filter (fun p => qualifies p orig) =
          ps.filter (fun p => qualifies p orig) := List.filter_cons_of_neg (by simpa using hq)
      rw [hfil, ih acc hlt]

theorem process_single_eq_some (o : Oracles) (url : Str) (info : UrlInfo)
    (h : extract_product_info_from_url url = some info) :
    process_single_url_async o url =
      match pipelineCore o info.country with
      | .ok (pd, rep) =>
          { report := rep, asin := info.asin, country := info.country,
            product_title := pd.product_title,
            product_image_url := pd.product_main_image_url,
            product_photos := some (pd.product_photos.getD []),
            product_features := some (pd.about_product.getD []) }
      | .error e =>
          { report := str "Erro ao processar o ASIN " ++ info.asin ++ str ": " ++ detailOf e,
            asin := info.asin, country := info.country,
            product_title := some (str "Falha ao processar URL: " ++ url) } := by
  unfold process_single_url_async
  rw [h]

theorem process_single_shape (o : Oracles) (url : Str) (info : UrlInfo)
    (h : extract_product_info_from_url url = some info) :
    (process_single_url_async o url).asin = info.asin ∧
    (process_single_url_async o url).country = info.country ∧
    (∀ e, pipelineCore o info.country = .error e →
      (process_single_url_async o url).report =
        str "Erro ao processar o ASIN " ++ info.asin ++ str ": " ++ detailOf e) ∧
    (∀ pd rep, pipelineCore o info.country = .ok (pd, rep) →
      (process_single_url_async o url).report = rep) := by
  rw [process_single_eq_some o url info h]
  cases hc : pipelineCore o info.country with
  | ok pr =>
    obtain ⟨pd, rep⟩ := pr
    refine ⟨rfl, rfl, ?_, ?_⟩
    · intro e he; cases he
    · intro pd2 rep2 he; cases he; rfl
  | error e =>
    refine ⟨rfl, rfl, ?_, ?_⟩
    · intro e2 he; cases he; rfl
    · intro pd rep he; cases he

theorem process_single_malformed (o : Oracles) (url : Str)
    (h : extract_product_info_from_url url = none) :
    process_single_url_async o url =
      { report := str "Erro: URL inválida ou ASIN não encontrado.",
        asin := str "ERRO", country := str "N/A",
        product_title := some (str "Falha ao processar URL: " ++ url) } := by
  unfold process_single_url_async
  rw [h]

theorem run_analysis_ok_of_extract (o : Oracles) (url : Str) (info : UrlInfo)
    (h : extract_product_info_from_url url = some info) :
    run_analysis_pipeline o url = .ok (process_single_url_async o url) := by
  have hne := extract_asin_ne_ERRO url info h
  have hasin := (process_single_shape o url info h).1
  unfold run_analysis_pipeline
  rw [if_neg (by rw [hasin]; exact hne)]

theorem run_analysis_400_of_none (o : Oracles) (url : Str)
    (h : extract_product_info_from_url url = none) :
    run_analysis_pipeline o url =
      .error (.httpExc 400 (str "Erro: URL inválida ou ASIN não encontrado.")) := by
  unfold run_analysis_pipeline
  rw [process_single_malformed o url h]
  rfl

theorem lookupCountry_default (table : List (Str × Str)) (h : Str)
    (hall : ∀ kv ∈ table, inStr kv.1 h = false) : lookupCountry table h = str "US" := by
  induction table with
  | nil => rfl
  | cons kv rest ih =>
    simp only [lookupCountry]
    rw [if_neg (by simp [hall kv (List.mem_cons_self kv rest)])]
    exact ih (fun x hx => hall x (List.mem_cons_of_mem kv hx))

/-! ## Claim theorems -/

/-- C4: marketplace resolution checks each known Amazon domain suffix against
    the parsed hostname by substring containment, first match winning in
    table-declaration order; a hostname containing amazon.com.br resolves to
    BR, a hostname containing amazon.com but not amazon.com.br resolves to
    US, a hostname matching no suffix still succeeds with default US, and,
    once an identifier was found, only a URL whose hostname cannot be parsed
    is a hard failure. -/
theorem C4_marketplace_resolution (url a : Str) (ha : extractAsin url = some a) :
    (∀ h, hostnameOf url = some h →
      extract_product_info_from_url url = some ⟨a, lookupCountry country_map h⟩ ∧
      (∀ pre k v post, country_map = pre ++ (k, v) :: post →
        (∀ kv ∈ pre, inStr kv.1 h = false) → inStr k h = true →
        lookupCountry country_map h = v) ∧
      (inStr (str "amazon.com.br") h = true → lookupCountry country_map h = str "BR") ∧
      (inStr (str "amazon.com") h = true → inStr (str "amazon.com.br") h = false →
        lookupCountry country_map h = str "US") ∧
      ((∀ kv ∈ country_map, inStr kv.1 h = false) → lookupCountry country_map h = str "US")) ∧
    (hostnameOf url = none → extract_product_info_from_url url = none) := by
  constructor
  · intro h hh
    refine ⟨?_, ?_, ?_, ?_, ?_⟩
    · unfold extract_product_info_from_url
      rw [ha, hh]
    · intro pre k v post htable hpre hk
      rw [htable]
      exact lookupCountry_first h k v pre post hpre hk
    · intro hbr
      simp only [country_map, lookupCountry]
      rw [if_pos hbr]
    · intro hcom hbr
      simp only [country_map, lookupCountry]
      rw [if_neg (by simp [hbr]), if_pos hcom]
    · exact lookupCountry_default country_map h
  · intro hh
    unfold extract_product_info_from_url
    rw [ha, hh]

theorem C4_marketplace_resolution_witness :
    extract_product_info_from_url (str "https://www.amazon.com.br/dp/B012345678") =
      some ⟨str "B012345678", str "BR"⟩ ∧
    extract_product_info_from_url (str "https://www.amazon.com/dp/B012345678") =
      some ⟨str "B012345678", str "US"⟩ ∧
    extract_product_info_from_url (str "https://shop.example.org/dp/B012345678") =
      some ⟨str "B012345678", str "US"⟩ := by
  refine ⟨?_, ?_, ?_⟩
  · have h := C4_marketplace_resolution (str "https://www.amazon.com.br/dp/B012345678")
      (str "B012345678") (by decide)
    have h2 := h.1 (str "www.amazon.com.br") (by decide)
    rw [h2.1, h2.2.2.1 (by decide)]
  · have h := C4_marketplace_resolution (str "https://www.amazon.com/dp/B012345678")
      (str "B012345678") (by decide)
    have h2 := h.1 (str "www.amazon.com") (by decide)
    rw [h2.1, h2.2.2.2.1 (by decide) (by decide)]
  · have h := C4_marketplace_resolution (str "https://shop.example.org/dp/B012345678")
      (str "B012345678") (by decide)
    have h2 := h.1 (str "shop.example.org") (by decide)
    rw [h2.1, h2.2.2.2.2 (by decide)]

/-- C5: the claim that the asin query-parameter value may carry upper- or
    lower-case letters is false: the third regex has no IGNORECASE flag, so
    a ten-character alphanumeric value with a lower-case letter is rejected
    even though both path matchers failed and the parameter parsed. -/
theorem C5_counterexample :
    search1 (str "https://www.amazon.com/shop?asin=b012345678") = none ∧
    search2 (str "https://www.amazon.com/shop?asin=b012345678") = none ∧
    firstValue (parse_qsl (queryOf (str "https://www.amazon.com/shop?asin=b012345678")))
      (str "asin") = some (str "b012345678") ∧
    (str "b012345678").length = 10 ∧
    (∀ c ∈ str "b012345678", isAlnumCI c = true) ∧
    extract_product_info_from_url (str "https://www.amazon.com/shop?asin=b012345678") = none := by
  refine ⟨by decide, by decide, by decide, by decide, by decide, by decide⟩

/-- C5 (amended): when neither path-based matcher succeeds, the cascade
    accepts an asin query parameter whose first value is exactly ten
    characters, each an upper-case letter or digit (case-sensitively), and
    uses that value as the identifier. -/
theorem C5_asin_query_param (url v : Str)
    (h1 : search1 url = none) (h2 : search2 url = none)
    (hv : firstValue (parse_qsl (queryOf url)) (str "asin") = some v)
    (hlen : v.length = 10) (hch : ∀ c ∈ v, isUpperAlnum c = true) :
    extractAsin url = some v := by
  unfold extractAsin
  rw [h1, h2]
  unfold queryAsin
  rw [hv]
  show (if regex3 v = true then some v else none) = some v
  rw [if_pos (regex3_complete v hlen hch)]

theorem C5_asin_query_param_witness :
    extractAsin (str "https://www.amazon.com/shop?asin=B012345678") =
      some (str "B012345678") :=
  C5_asin_query_param (str "https://www.amazon.com/shop?asin=B012345678")
    (str "B012345678") (by decide) (by decide) (by decide) (by decide) (by decide)

/-- C6: the claim fails for a URL-shaped string with no parseable hostname:
    it contains a well-formed dp segment with a ten-character alphanumeric
    token, yet extraction returns None because urlparse finds no hostname. -/
theorem C6_counterexample :
    inStr (str "/dp/" ++ str "B012345678") (str "/dp/B012345678") = true ∧
    (str "B012345678").length = 10 ∧
    (∀ c ∈ str "B012345678", isAlnumCI c = true) ∧
    extract_product_info_from_url (str "/dp/B012345678") = none := by
  refine ⟨by decide, by decide, by decide, by decide⟩

/-- C6 (amended): for every URL whose hostname parses and which contains a
    well-formed dp segment followed by a ten-character token of the
    IGNORECASE class A-Z0-9, extraction succeeds and the returned
    identifier is the ten-character token of that class captured by the
    first regex at its leftmost match, a verbatim substring of the URL (no
    case normalization is applied). -/
theorem C6_dp_extraction (url t h : Str)
    (ht : inStr (str "/dp/" ++ t) url = true)
    (hlen : t.length = 10) (hch : ∀ c ∈ t, isAlnumCI c = true)
    (hh : hostnameOf url = some h) :
    ∃ a, extract_product_info_from_url url = some ⟨a, lookupCountry country_map h⟩ ∧
      a.length = 10 ∧ (∀ c ∈ a, isAlnumCI c = true) ∧ inStr a url = true := by
  obtain ⟨p, s, hdecomp⟩ := (inStr_iff _ _).mp ht
  have htry : tryMatch1At (str "/dp/" ++ (t ++ s)) = some t := tryMatch1At_dp t s hlen hch
  have hsome : (search1 url).isSome = true := by
    have hre : url = p ++ (str "/dp/" ++ (t ++ s)) := by
      rw [hdecomp]; simp
    rw [hre]
    exact search1_isSome_of_suffix p _ (by rw [htry]; rfl)
  obtain ⟨a, hsa⟩ := Option.isSome_iff_exists.mp hsome
  obtain ⟨halen, haall, u, v, huv⟩ := search1_sound url a hsa
  refine ⟨a, ?_, halen, haall, (inStr_iff _ _).mpr ⟨u, v, huv⟩⟩
  unfold extract_product_info_from_url extractAsin
  rw [hsa, hh]

theorem C6_dp_extraction_witness :
    ∃ a, extract_product_info_from_url (str "https://www.amazon.com/dp/b01mXy2z9K") =
      some ⟨a, lookupCountry country_map (str "www.amazon.com")⟩ ∧
      a.length = 10 ∧ (∀ c ∈ a, isAlnumCI c = true) ∧
      inStr a (str "https://www.amazon.com/dp/b01mXy2z9K") = true :=
  C6_dp_extraction (str "https://www.amazon.com/dp/b01mXy2z9K") (str "b01mXy2z9K")
    (str "www.amazon.com") (by decide) (by decide) (by decide) (by decide)

/-- C10: the claim that a successful extraction always yields an identifier
    of exactly ten ASCII alphanumeric characters is false twice over: the
    dollar anchor of the asin query regex also matches just before a
    trailing newline and the code stores the whole parameter value, so a
    percent-encoded newline yields an eleven-character identifier with a
    newline; and the IGNORECASE path regexes also accept the four
    non-ASCII case-fold letters, so a dp token led by the Kelvin sign
    (U+212A) yields a ten-character identifier that is not ASCII. -/
theorem C10_counterexample :
    extract_product_info_from_url (str "https://www.amazon.com/x?asin=ABCDEFGHIJ%0A") =
      some ⟨str "ABCDEFGHIJ\n", str "US"⟩ ∧
    (str "ABCDEFGHIJ\n").length = 11 ∧
    isAlnumCI '\n' = false ∧
    extract_product_info_from_url (str "https://www.amazon.com/dp/\u212AAAAAAAAAA") =
      some ⟨str "\u212AAAAAAAAAA", str "US"⟩ ∧
    (str "\u212AAAAAAAAAA").length = 10 ∧
    ((Char.ofNat 0x212A).isAlpha || (Char.ofNat 0x212A).isDigit) = false := by
  refine ⟨by decide, by decide, by decide, by decide, by decide, by decide⟩

/-- C10 (amended): a successful extraction yields an identifier that is
    either ten characters each in the IGNORECASE class A-Z0-9 (an ASCII
    letter or digit, or one of the four non-ASCII case-fold letters
    U+0130, U+0131, U+017F, U+212A) through the path matchers and plain
    query values, or ten upper-case ASCII alphanumeric characters followed
    by one trailing newline (query value accepted through the dollar-anchor
    newline case); the country is one of the twelve table codes or US; the
    identifier can never equal the four-character sentinel ERRO, so POST
    /analyze responds 400 exactly when extraction failed. -/
theorem C10_extraction_invariants (url : Str) :
    (∀ info, extract_product_info_from_url url = some info →
      ((info.asin.length = 10 ∧ ∀ c ∈ info.asin, isAlnumCI c = true) ∨
        (∃ t, info.asin = t ++ ['\n'] ∧ t.length = 10 ∧ ∀ c ∈ t, isUpperAlnum c = true)) ∧
      (info.country ∈ country_map.map Prod.snd ∨ info.country = str "US") ∧
      info.asin ≠ str "ERRO" ∧
      (∀ o, run_analysis_pipeline o url = .ok (process_single_url_async o url))) ∧
    (extract_product_info_from_url url = none →
      ∀ o, run_analysis_pipeline o url =
        .error (.httpExc 400 (str "Erro: URL inválida ou ASIN não encontrado."))) := by
  constructor
  · intro info hinfo
    obtain ⟨a, host, ha, hh, hi⟩ := extract_inv url info hinfo
    refine ⟨?_, ?_, extract_asin_ne_ERRO url info hinfo,
      fun o => run_analysis_ok_of_extract o url info hinfo⟩
    · have := extractAsin_shape url a ha
      rw [hi]
      exact this
    · rw [hi]
      exact lookupCountry_mem country_map host
  · intro hnone o
    exact run_analysis_400_of_none o url hnone

theorem C10_extraction_invariants_witness :
    (⟨str "B012345678", str "US"⟩ : UrlInfo).asin ≠ str "ERRO" ∧
    run_analysis_pipeline ⟨DetailsOutcome.transportErr, GenOutcome.ok (str "R")⟩
      (str "https://www.example.com/") =
      .error (.httpExc 400 (str "Erro: URL inválida ou ASIN não encontrado.")) := by
  constructor
  · exact ((C10_extraction_invariants (str "https://www.amazon.com/dp/B012345678")).1
      ⟨str "B012345678", str "US"⟩ (by decide)).2.2.1
  · exact (C10_extraction_invariants (str "https://www.example.com/")).2 (by decide)
      ⟨DetailsOutcome.transportErr, GenOutcome.ok (str "R")⟩

/-- A product record with a title and one photo, used to exercise the
    generation-failure path. -/
def samplePhotoProduct : ProductData :=
  { product_title := some (str "T"), product_photos := some [str "img"] }

/-- C1: the claim that POST /analyze propagates 404, 503 and 500 failures
    is false: every exception of the fetch-and-analyze body is caught by
    process_single_url_async and turned into an error-shaped 200 response
    whose asin is the extracted identifier, so the endpoint returns ok (no
    HTTPException) for a provider 404, a transport 503 and a generation 500
    alike; only the malformed-URL 400 is actually raised. -/
theorem C1_counterexample :
    (run_analysis_pipeline ⟨DetailsOutcome.ok none, GenOutcome.ok (str "R")⟩
      (str "https://www.amazon.com/dp/B000000000")).isOk = true ∧
    process_single_url_async ⟨DetailsOutcome.ok none, GenOutcome.ok (str "R")⟩
      (str "https://www.amazon.com/dp/B000000000") =
      { report := str "Erro ao processar o ASIN B000000000: Produto não encontrado na API da Amazon.",
        asin := str "B000000000", country := str "US",
        product_title := some (str "Falha ao processar URL: https://www.amazon.com/dp/B000000000") } ∧
    (run_analysis_pipeline ⟨DetailsOutcome.transportErr, GenOutcome.ok (str "R")⟩
      (str "https://www.amazon.com/dp/B000000000")).isOk = true ∧
    (run_analysis_pipeline
      ⟨DetailsOutcome.ok (some samplePhotoProduct), GenOutcome.fail (str "boom")⟩
      (str "https://www.amazon.com/dp/B000000000")).isOk = true := by
  refine ⟨by decide, by decide, by decide, by decide⟩

/-- C1 (amended): POST /analyze raises a 400 HTTPException exactly when the
    URL has no extractable identifier; a provider 404 or 503 and a
    generation 500 are caught inside process_single_url_async and converted
    into an error-shaped body returned with the normal response, carrying
    the extracted identifier and a report naming the failure detail. -/
theorem C1_analyze_error_handling (o : Oracles) (url : Str) :
    (extract_product_info_from_url url = none →
      run_analysis_pipeline o url =
        .error (.httpExc 400 (str "Erro: URL inválida ou ASIN não encontrado."))) ∧
    (∀ info, extract_product_info_from_url url = some info →
      run_analysis_pipeline o url = .ok (process_single_url_async o url) ∧
      (process_single_url_async o url).asin = info.asin ∧
      (∀ e, pipelineCore o info.country = .error e →
        (process_single_url_async o url).report =
          str "Erro ao processar o ASIN " ++ info.asin ++ str ": " ++ detailOf e)) := by
  constructor
  · intro hnone
    exact run_analysis_400_of_none o url hnone
  · intro info hinfo
    obtain ⟨hasin, _, herr, _⟩ := process_single_shape o url info hinfo
    exact ⟨run_analysis_ok_of_extract o url info hinfo, hasin, herr⟩

theorem C1_analyze_error_handling_witness :
    run_analysis_pipeline ⟨DetailsOutcome.ok none, GenOutcome.ok (str "R")⟩
      (str "https://www.amazon.com/dp/B000000000") =
      .ok (process_single_url_async ⟨DetailsOutcome.ok none, GenOutcome.ok (str "R")⟩
        (str "https://www.amazon.com/dp/B000000000")) ∧
    run_analysis_pipeline ⟨DetailsOutcome.ok none, GenOutcome.ok (str "R")⟩
      (str "https://www.example.com/") =
      .error (.httpExc 400 (str "Erro: URL inválida ou ASIN não encontrado.")) := by
  constructor
  · exact ((C1_analyze_error_handling ⟨DetailsOutcome.ok none, GenOutcome.ok (str "R")⟩
      (str "https://www.amazon.com/dp/B000000000")).2
      ⟨str "B000000000", str "US"⟩ (by decide)).1
  · exact (C1_analyze_error_handling ⟨DetailsOutcome.ok none, GenOutcome.ok (str "R")⟩
      (str "https://www.example.com/")).1 (by decide)

/-- C2: POST /batch_analyze returns exactly one result per input URL, in
    input order; the result in slot i is the single-URL run of input i
    alone, so a per-item failure (including a URL with no extractable
    identifier, which yields the error-shaped ERRO entry) never prevents or
    corrupts any other slot: slot i depends only on input i. -/
theorem C2_batch_isolation (inputs : List (Oracles × Str)) :
    (run_batch_analysis_pipeline inputs).length = inputs.length ∧
    (∀ (i : Nat) (o : Oracles) (u : Str), inputs[i]? = some (o, u) →
      (run_batch_analysis_pipeline inputs)[i]? = some (process_single_url_async o u) ∧
      (extract_product_info_from_url u = none →
        ∃ r, (run_batch_analysis_pipeline inputs)[i]? = some r ∧ r.asin = str "ERRO" ∧
          r.report = str "Erro: URL inválida ou ASIN não encontrado.") ∧
      (∀ inputs2, inputs2[i]? = some (o, u) →
        (run_batch_analysis_pipeline inputs2)[i]? =
          (run_batch_analysis_pipeline inputs)[i]?)) := by
  refine ⟨by simp [run_batch_analysis_pipeline], ?_⟩
  intro i o u hi
  have hmap : (run_batch_analysis_pipeline inputs)[i]? = some (process_single_url_async o u) := by
    unfold run_batch_analysis_pipeline
    rw [List.getElem?_map, hi]
    rfl
  refine ⟨hmap, ?_, ?_⟩
  · intro hnone
    refine ⟨process_single_url_async o u, hmap, ?_, ?_⟩
    · rw [process_single_malformed o u hnone]
    · rw [process_single_malformed o u hnone]
  · intro inputs2 hi2
    unfold run_batch_analysis_pipeline
    rw [List.getElem?_map, List.getElem?_map, hi, hi2]

/-- Oracles for a successful single-URL run in the batch scenario. -/
def demoGoodOracle : Oracles :=
  ⟨DetailsOutcome.ok (some samplePhotoProduct), GenOutcome.ok (str "R")⟩

/-- The three-input batch of the specification scenario: inputs one and
    three carry extractable identifiers, input two does not. -/
def demoBatch : List (Oracles × Str) :=
  [(demoGoodOracle, str "https://www.amazon.com/dp/B012345678"),
   (demoGoodOracle, str "https://www.amazon.com/"),
   (demoGoodOracle, str "https://www.amazon.com.br/dp/C012345678")]

theorem C2_batch_isolation_witness :
    (run_batch_analysis_pipeline demoBatch).length = 3 ∧
    (∃ r, (run_batch_analysis_pipeline demoBatch)[1]? = some r ∧ r.asin = str "ERRO" ∧
      r.report = str "Erro: URL inválida ou ASIN não encontrado.") ∧
    (∃ r, (run_batch_analysis_pipeline demoBatch)[0]? = some r ∧
      r.asin = str "B012345678" ∧ r.report = str "R") ∧
    (∃ r, (run_batch_analysis_pipeline demoBatch)[2]? = some r ∧
      r.asin = str "C012345678" ∧ r.report = str "R") := by
  have h := C2_batch_isolation demoBatch
  refine ⟨by simpa using h.1, ?_, ?_, ?_⟩
  · exact ((h.2 1 demoGoodOracle (str "https://www.amazon.com/") (by decide)).2.1 (by decide))
  · have h0 := (h.2 0 demoGoodOracle (str "https://www.amazon.com/dp/B012345678") (by decide)).1
    exact ⟨_, h0, by decide, by decide⟩
  · have h2 := (h.2 2 demoGoodOracle (str "https://www.amazon.com.br/dp/C012345678") (by decide)).1
    exact ⟨_, h2, by decide, by decide⟩

/-- C3: the claim that every transport or data failure of the enrichment
    clients is silently absorbed is false: only httpx.RequestError is
    caught, while a non-2xx provider response makes raise_for_status throw
    httpx.HTTPStatusError, which escapes both get_product_reviews and
    get_competitors and can abort the calling pipeline. -/
theorem C3_counterexample :
    get_product_reviews ReviewsOutcome.statusErr =
      .error (.rawExc (str "httpx.HTTPStatusError")) ∧
    get_competitors CompetitorsOutcome.statusErr (str "B012345678") =
      .error (.rawExc (str "httpx.HTTPStatusError")) := ⟨rfl, rfl⟩

/-- C3 (amended): the enrichment clients are best-effort against transport
    errors only: on an httpx.RequestError get_product_reviews returns both
    buckets empty and get_competitors returns the empty list, silently, and
    on any successful response neither raises; but an httpx.HTTPStatusError
    from raise_for_status is not caught and propagates past the boundary. -/
theorem C3_enrichment_best_effort :
    get_product_reviews ReviewsOutcome.transportErr = .ok ⟨[], []⟩ ∧
    (∀ rs, get_product_reviews (ReviewsOutcome.ok rs) = .ok (reviewBuckets rs)) ∧
    (∀ a, get_competitors CompetitorsOutcome.transportErr a = .ok []) ∧
    (∀ a ps, get_competitors (CompetitorsOutcome.ok ps) a = .ok (competitorsLoop a ps [])) ∧
    (∀ o : ReviewsOutcome, o ≠ ReviewsOutcome.statusErr →
      (get_product_reviews o).isOk = true) ∧
    (∀ (o : CompetitorsOutcome) a, o ≠ CompetitorsOutcome.statusErr →
      (get_competitors o a).isOk = true) := by
  refine ⟨rfl, fun rs => rfl, fun a => rfl, fun a ps => rfl, ?_, ?_⟩
  · intro o ho
    cases o with
    | transportErr => rfl
    | statusErr => exact absurd rfl ho
    | ok rs => rfl
  · intro o a ho
    cases o with
    | transportErr => rfl
    | statusErr => exact absurd rfl ho
    | ok ps => rfl

theorem C3_enrichment_best_effort_witness :
    (get_product_reviews ReviewsOutcome.transportErr).isOk = true ∧
    (get_competitors CompetitorsOutcome.transportErr (str "B012345678")).isOk = true :=
  ⟨C3_enrichment_best_effort.2.2.2.2.1 ReviewsOutcome.transportErr (by decide),
   C3_enrichment_best_effort.2.2.2.2.2 CompetitorsOutcome.transportErr (str "B012345678")
     (by decide)⟩

/-- C7: get_product_reviews buckets a review comment as positive from a
    star rating of at least 4 and as negative from a rating of at most 2
    (rating 3 lands in neither), truncates each bucket to at most ten
    entries, and preserves the provider order within each bucket. -/
theorem C7_review_bucketing (rs : List Review) :
    get_product_reviews (ReviewsOutcome.ok rs) = .ok (reviewBuckets rs) ∧
    (reviewBuckets rs).positive_reviews =
      ((rs.filter (fun r => 4 ≤ r.review_star_rating)).map Review.review_comment).take 10 ∧
    (reviewBuckets rs).negative_reviews =
      ((rs.filter (fun r => r.review_star_rating ≤ 2)).map Review.review_comment).take 10 ∧
    (reviewBuckets rs).positive_reviews.length ≤ 10 ∧
    (reviewBuckets rs).negative_reviews.length ≤ 10 ∧
    (reviewBuckets rs).positive_reviews.Sublist (rs.map Review.review_comment) ∧
    (reviewBuckets rs).negative_reviews.Sublist (rs.map Review.review_comment) ∧
    (∀ c, c ∈ (reviewBuckets rs).positive_reviews →
      ∃ r, r ∈ rs ∧ r.review_comment = c ∧ 4 ≤ r.review_star_rating) ∧
    (∀ c, c ∈ (reviewBuckets rs).negative_reviews →
      ∃ r, r ∈ rs ∧ r.review_comment = c ∧ r.review_star_rating ≤ 2) ∧
    (∀ r, r ∈ rs → r.review_star_rating = 3 →
      (∀ q, q ∈ rs → q.review_comment = r.review_comment → q.review_star_rating = 3) →
      r.review_comment ∉ (reviewBuckets rs).positive_reviews ∧
      r.review_comment ∉ (reviewBuckets rs).negative_reviews) ∧
    ((rs.filter (fun r => 4 ≤ r.review_star_rating)).length ≤ 10 →
      (reviewBuckets rs).positive_reviews =
        (rs.filter (fun r => 4 ≤ r.review_star_rating)).map Review.review_comment) := by
  have hposmem : ∀ c, c ∈ (reviewBuckets rs).positive_reviews →
      ∃ r, r ∈ rs ∧ r.review_comment = c ∧ 4 ≤ r.review_star_rating := by
    intro c hc
    have hc2 : c ∈ (rs.filter (fun r => 4 ≤ r.review_star_rating)).map Review.review_comment :=
      (List.take_sublist 10 _).subset hc
    obtain ⟨r, hr, hrc⟩ := List.mem_map.mp hc2
    obtain ⟨hmem, hp⟩ := List.mem_filter.mp hr
    exact ⟨r, hmem, hrc, of_decide_eq_true hp⟩
  have hnegmem : ∀ c, c ∈ (reviewBuckets rs).negative_reviews →
      ∃ r, r ∈ rs ∧ r.review_comment = c ∧ r.review_star_rating ≤ 2 := by
    intro c hc
    have hc2 : c ∈ (rs.filter (fun r => r.review_star_rating ≤ 2)).map Review.review_comment :=
      (List.take_sublist 10 _).subset hc
    obtain ⟨r, hr, hrc⟩ := List.mem_map.mp hc2
    obtain ⟨hmem, hp⟩ := List.mem_filter.mp hr
    exact ⟨r, hmem, hrc, of_decide_eq_true hp⟩
  refine ⟨rfl, rfl, rfl, ?_, ?_, ?_, ?_, hposmem, hnegmem, ?_, ?_⟩
  · simp only [reviewBuckets, List.length_take]
    exact min_le_left _ _
  · simp only [reviewBuckets, List.length_take]
    exact min_le_left _ _
  · exact (List.take_sublist 10 _).trans ((List.filter_sublist rs).map Review.review_comment)
  · exact (List.take_sublist 10 _).trans ((List.filter_sublist rs).map Review.review_comment)
  · intro r hr hr3 hall
    constructor
    · intro hmem
      obtain ⟨q, hq, hqc, hq4⟩ := hposmem r.review_comment hmem
      have := hall q hq hqc
      omega
    · intro hmem
      obtain ⟨q, hq, hqc, hq2⟩ := hnegmem r.review_comment hmem
      have := hall q hq hqc
      omega
  · intro h10
    show ((rs.filter (fun r => 4 ≤ r.review_star_rating)).map Review.review_comment).take 10 = _
    exact List.take_of_length_le (by rwa [List.length_map])

/-- Reviews with star ratings five down to one, as in the specification
    scenario. -/
def demoReviews : List Review :=
  [⟨str "c5", 5⟩, ⟨str "c4", 4⟩, ⟨str "c3", 3⟩, ⟨str "c2", 2⟩, ⟨str "c1", 1⟩]

theorem C7_review_bucketing_witness :
    reviewBuckets demoReviews = ⟨[str "c5", str "c4"], [str "c2", str "c1"]⟩ ∧
    (∃ r, r ∈ demoReviews ∧ r.review_comment = str "c5" ∧ 4 ≤ r.review_star_rating) ∧
    str "c3" ∉ (reviewBuckets demoReviews).positive_reviews ∧
    str "c3" ∉ (reviewBuckets demoReviews).negative_reviews := by
  have h := C7_review_bucketing demoReviews
  have h3 := h.2.2.2.2.2.2.2.2.2.1 ⟨str "c3", 3⟩ (by decide) (by decide) (by decide)
  exact ⟨by decide, h.2.2.2.2.2.2.2.1 (str "c5") (by decide), h3.1, h3.2⟩

/-- C8: get_competitors returns the first qualifying search results in
    provider order, at most five, where a result qualifies exactly when its
    asin field differs from the original identifier and its sponsored flag
    does not hold. -/
theorem C8_competitor_selection (ps : List SearchProduct) (orig : Str) :
    get_competitors (CompetitorsOutcome.ok ps) orig =
      .ok (((ps.filter (fun p => qualifies p orig)).map mkCompetitor).take 5) ∧
    (competitorsLoop orig ps []).length ≤ 5 ∧
    (competitorsLoop orig ps []).Sublist (ps.map mkCompetitor) ∧
    (∀ c, c ∈ competitorsLoop orig ps [] →
      ∃ p, p ∈ ps ∧ mkCompetitor p = c ∧ p.asin ≠ some orig ∧
        p.is_sponsored.getD false = false) ∧
    ((ps.filter (fun p => qualifies p orig)).length ≤ 5 →
      competitorsLoop orig ps [] = (ps.filter (fun p => qualifies p orig)).map mkCompetitor) := by
  have hloop : competitorsLoop orig ps [] =
      ((ps.filter (fun p => qualifies p orig)).map mkCompetitor).take 5 := by
    have := competitorsLoop_eq_take orig ps [] (by decide)
    simpa using this
  refine ⟨?_, ?_, ?_, ?_, ?_⟩
  · show Except.ok (competitorsLoop orig ps []) = _
    rw [hloop]
  · rw [hloop]
    simp only [List.length_take]
    exact min_le_left _ _
  · rw [hloop]
    exact (List.take_sublist 5 _).trans ((List.filter_sublist ps).map mkCompetitor)
  · intro c hc
    rw [hloop] at hc
    have hc2 : c ∈ (ps.filter (fun p => qualifies p orig)).map mkCompetitor :=
      (List.take_sublist 5 _).subset hc
    obtain ⟨p, hp, hpc⟩ := List.mem_map.mp hc2
    obtain ⟨hmem, hq⟩ := List.mem_filter.mp hp
    have hq2 : (p.asin != some orig) = true ∧ (p.is_sponsored.getD false) = false := by
      have := hq
      simp only [qualifies, Bool.and_eq_true, Bool.not_eq_true'] at this
      exact this
    exact ⟨p, hmem, hpc, bne_iff_ne.mp hq2.1, hq2.2⟩
  · intro h5
    rw [hloop]
    exact List.take_of_length_le (by rwa [List.length_map])

/-- Search results of the specification scenario: the product itself, a
    sponsored result, and six organic competitors. -/
def demoSearch : List SearchProduct :=
  [{ asin := some (str "B012345678"), product_title := some (str "self") },
   { asin := some (str "S000000001"), is_sponsored := some true,
     product_title := some (str "sponsored") },
   { asin := some (str "K000000001"), product_title := some (str "k1") },
   { asin := some (str "K000000002"), product_title := some (str "k2") },
   { asin := some (str "K000000003"), product_title := some (str "k3") },
   { asin := some (str "K000000004"), product_title := some (str "k4") },
   { asin := some (str "K000000005"), product_title := some (str "k5") },
   { asin := some (str "K000000006"), product_title := some (str "k6") }]

theorem C8_competitor_selection_witness :
    (competitorsLoop (str "B012345678") demoSearch []).length ≤ 5 ∧
    competitorsLoop (str "B012345678") demoSearch [] =
      [mkCompetitor { asin := some (str "K000000001"), product_title := some (str "k1") },
       mkCompetitor { asin := some (str "K000000002"), product_title := some (str "k2") },
       mkCompetitor { asin := some (str "K000000003"), product_title := some (str "k3") },
       mkCompetitor { asin := some (str "K000000004"), product_title := some (str "k4") },
       mkCompetitor { asin := some (str "K000000005"), product_title := some (str "k5") }] ∧
    (∃ p, p ∈ demoSearch ∧
      mkCompetitor p =
        mkCompetitor { asin := some (str "K000000001"), product_title := some (str "k1") } ∧
      p.asin ≠ some (str "B012345678") ∧ p.is_sponsored.getD false = false) := by
  have h := C8_competitor_selection demoSearch (str "B012345678")
  refine ⟨h.2.1, by decide, ?_⟩
  exact h.2.2.2.1 _ (by decide)

/-- C9: with an empty resolved photo list analyze_product_with_gemini never
    fails: it returns the non-error textual fallback report, that report
    contains the product title, and the result does not depend on the
    generation oracle at all, so no generation call is made. -/
theorem C9_no_images_fallback (g : GenOutcome) (d : ProductData) (country : Str)
    (himg : d.product_photos.getD [] = []) :
    analyze_product_with_gemini g d country = .ok (fallbackReport d) ∧
    (∀ t, d.product_title = some t → inStr t (fallbackReport d) = true) ∧
    (∀ g2, analyze_product_with_gemini g2 d country =
      analyze_product_with_gemini g d country) := by
  have h1 : ∀ g0 : GenOutcome, analyze_product_with_gemini g0 d country =
      .ok (fallbackReport d) := by
    intro g0
    unfold analyze_product_with_gemini
    rw [himg]
    rfl
  refine ⟨h1 g, ?_, fun g2 => (h1 g2).trans (h1 g).symm⟩
  intro t ht
  have hAB : fallbackReport d =
      (str "⚠️ Nenhuma imagem de produto foi encontrada na API.\n--- DADOS TEXTUAIS ---\n**Título:** ")
        ++ t ++
      (str "\n**Conteúdo do anúncio:**\n" ++ fullTextContent d ++
        str "\n**Dimensões (texto):** " ++ findDimensions (d.product_information.getD [])) := by
    simp [fallbackReport, ht]
  rw [hAB]
  exact inStr_append_middle t _ _

theorem C9_no_images_fallback_witness :
    analyze_product_with_gemini (GenOutcome.fail (str "boom"))
      { product_title := some (str "T"), product_photos := some [] } (str "US") =
      .ok (fallbackReport { product_title := some (str "T"), product_photos := some [] }) ∧
    inStr (str "T")
      (fallbackReport { product_title := some (str "T"), product_photos := some [] }) = true := by
  have h := C9_no_images_fallback (GenOutcome.fail (str "boom"))
    { product_title := some (str "T"), product_photos := some [] } (str "US") (by decide)
  exact ⟨h.1, h.2.1 (str "T") (by decide)⟩
